import Mathlib

/-!
Verification of the draft-generation pipeline of OPI-trendFinder
(src/services/generateDraft.ts).

The TypeScript function `generateDraft` is embedded as a pure Lean
function.  The external provider call is modelled as an oracle
`call : Backend → Except Unit (Option String)`: `Except.error` is a
transport failure thrown by the HTTP client, `Except.ok none` is a
completion whose `message.content` is null, and `Except.ok (some s)`
is a completion with content `s`.  The current date (read from
`new Date().toLocaleDateString()`) is a parameter.  JavaScript values
produced by `JSON.parse` are embedded as the inductive `Json`;
JavaScript truthiness, property access, the `||` operator and
template-literal string conversion are embedded by `truthy`,
`getField`, `jsOrOpt` and `jsToDisplay`.
-/

/-- JavaScript values that `JSON.parse` can produce.  Numbers keep their
source lexeme; only their zero-ness (truthiness) is interpreted, since no
number ever reaches a rendered draft in the properties below. -/
inductive Json where
  | null : Json
  | bool : Bool → Json
  | num : String → Json
  | str : String → Json
  | arr : List Json → Json
  | obj : List (String × Json) → Json

/-- Whitespace recognised by the JavaScript regex class `\s` and by
`String.prototype.trim`. -/
def jsWsChar (c : Char) : Bool :=
  c = ' ' || c = '\t' || c = '\n' || c = '\x0b' || c = '\x0c' || c = '\r' ||
  c = '\u00A0' || c = '\u1680' || ('\u2000' ≤ c && c ≤ '\u200A') ||
  c = '\u2028' || c = '\u2029' || c = '\u202F' || c = '\u205F' ||
  c = '\u3000' || c = '\uFEFF'

/-- The literal pattern of the first replace regex: three backticks
followed by the tag "json". -/
def jsonFencePat : List Char := "```json".toList

/-- The literal pattern of the trailing-fence regex: three backticks. -/
def backtick3Pat : List Char := "```".toList

/-- Does the list start with the given pattern? -/
def startsWithChars : List Char → List Char → Bool
  | _, [] => true
  | [], _ :: _ => false
  | c :: cs, p :: ps => c = p && startsWithChars cs ps

/-- Dropping a while-run never lengthens a list. -/
theorem length_dropWhile_le (p : Char → Bool) (l : List Char) :
    (l.dropWhile p).length ≤ l.length := by
  induction l with
  | nil => simp [List.dropWhile]
  | cons c rest ih =>
    by_cases h : p c
    · simp only [List.dropWhile_cons_of_pos h, List.length_cons]
      omega
    · simp [List.dropWhile_cons_of_neg h]

/-- Embedding of `.replace(/```json\s*/g, '')`, written with a fuel
argument so that the recursion is structural: every occurrence of
"```json" together with the whitespace run following it is removed,
scanning left to right, wherever it occurs in the text.  Each step
consumes at least one character, so any fuel above the length of the
input never runs out; exhausted fuel returns the remainder unchanged. -/
def removeJsonFencesFuel : Nat → List Char → List Char
  | 0, l => l
  | _ + 1, [] => []
  | fuel + 1, c :: rest =>
    if startsWithChars (c :: rest) jsonFencePat then
      removeJsonFencesFuel fuel ((rest.drop 6).dropWhile jsWsChar)
    else
      c :: removeJsonFencesFuel fuel rest

/-- The first replace of `cleanJSON`, at an always-sufficient fuel. -/
def removeJsonFences (l : List Char) : List Char :=
  removeJsonFencesFuel (l.length + 1) l

/-- Embedding of `.replace(/```\s*$/g, '')`: the match, when it exists,
starts at the leftmost position from which the whole remaining suffix is
three backticks followed only by whitespace; everything from that
position on is removed. -/
def removeTrailingFence : List Char → List Char
  | [] => []
  | c :: rest =>
    if startsWithChars (c :: rest) backtick3Pat &&
        ((c :: rest).drop 3).all jsWsChar then
      []
    else
      c :: removeTrailingFence rest

/-- Embedding of `String.prototype.trim`. -/
def jsTrimL (l : List Char) : List Char :=
  ((l.dropWhile jsWsChar).reverse.dropWhile jsWsChar).reverse

/-- Embedding of `String.prototype.trim` on strings. -/
def jsTrim (s : String) : String :=
  String.mk (jsTrimL s.toList)

/-- Embedding of the `cleanJSON` expression of generateDraft.ts:
remove every "```json" fence marker, remove a trailing "```" fence,
then trim surrounding whitespace. -/
def cleanJSON (s : String) : String :=
  String.mk (jsTrimL (removeTrailingFence (removeJsonFences s.toList)))

/-- Does "```json" occur anywhere in the text? -/
def occursJsonFence : List Char → Bool
  | [] => false
  | c :: rest => startsWithChars (c :: rest) jsonFencePat || occursJsonFence rest

/-- Does the trailing-fence regex match anywhere (necessarily extending to
the end of the text)? -/
def hasTrailingFence : List Char → Bool
  | [] => false
  | c :: rest =>
    (startsWithChars (c :: rest) backtick3Pat &&
      ((c :: rest).drop 3).all jsWsChar) || hasTrailingFence rest

/-- Whitespace accepted between tokens by `JSON.parse`. -/
def jsonWsChar (c : Char) : Bool :=
  c = ' ' || c = '\t' || c = '\n' || c = '\r'

/-- Skip JSON inter-token whitespace. -/
def skipWs (l : List Char) : List Char := l.dropWhile jsonWsChar

/-- Value of a hexadecimal digit. -/
def hexVal (c : Char) : Option Nat :=
  if '0' ≤ c ∧ c ≤ '9' then some (c.toNat - '0'.toNat)
  else if 'a' ≤ c ∧ c ≤ 'f' then some (c.toNat - 'a'.toNat + 10)
  else if 'A' ≤ c ∧ c ≤ 'F' then some (c.toNat - 'A'.toNat + 10)
  else none

/-- Single-character string escapes of JSON. -/
def escChar (e : Char) : Option Char :=
  if e = '"' then some '"'
  else if e = '\\' then some '\\'
  else if e = '/' then some '/'
  else if e = 'b' then some '\x08'
  else if e = 'f' then some '\x0c'
  else if e = 'n' then some '\n'
  else if e = 'r' then some '\r'
  else if e = 't' then some '\t'
  else none

/-- Parse the body of a JSON string literal, the opening quote already
consumed; returns the decoded characters and the rest of the input. -/
def parseStringBody : Nat → List Char → Option (List Char × List Char)
  | 0, _ => none
  | _ + 1, [] => none
  | fuel + 1, c :: rest =>
    if c = '"' then some ([], rest)
    else if c = '\\' then
      match rest with
      | [] => none
      | 'u' :: h1 :: h2 :: h3 :: h4 :: rest3 =>
        match hexVal h1, hexVal h2, hexVal h3, hexVal h4 with
        | some a, some b, some c2, some d =>
          (parseStringBody fuel rest3).map
            (fun p => (Char.ofNat (((a * 16 + b) * 16 + c2) * 16 + d) :: p.1, p.2))
        | _, _, _, _ => none
      | e :: rest2 =>
        match escChar e with
        | some ch => (parseStringBody fuel rest2).map (fun p => (ch :: p.1, p.2))
        | none => none
    else if c.toNat < 32 then none
    else (parseStringBody fuel rest).map (fun p => (c :: p.1, p.2))

/-- Leading digit run of the input. -/
def digitsOf (l : List Char) : List Char × List Char :=
  (l.takeWhile Char.isDigit, l.dropWhile Char.isDigit)

/-- Integer part of a JSON number: "0" alone, or a nonzero digit followed
by any digits (JSON forbids leading zeros). -/
def parseIntPart : List Char → Option (List Char × List Char)
  | [] => none
  | c :: rest =>
    if c = '0' then some (['0'], rest)
    else if c.isDigit then
      some (c :: (digitsOf rest).1, (digitsOf rest).2)
    else none

/-- Optional fraction part of a JSON number. -/
def parseFracPart (l : List Char) : Option (List Char × List Char) :=
  match l with
  | '.' :: rest =>
    match digitsOf rest with
    | ([], _) => none
    | (ds, r) => some ('.' :: ds, r)
  | _ => some ([], l)

/-- Optional exponent part of a JSON number. -/
def parseExpPart (l : List Char) : Option (List Char × List Char) :=
  match l with
  | c :: rest =>
    if c = 'e' || c = 'E' then
      match rest with
      | s :: r2 =>
        if s = '+' || s = '-' then
          match digitsOf r2 with
          | ([], _) => none
          | (ds, r) => some (c :: s :: ds, r)
        else
          match digitsOf rest with
          | ([], _) => none
          | (ds, r) => some (c :: ds, r)
      | [] => none
    else some ([], l)
  | [] => some ([], [])

/-- Parse a JSON number, keeping its lexeme. -/
def parseNumber (l : List Char) : Option (Json × List Char) :=
  let (neg, l1) :=
    match l with
    | '-' :: r => (['-'], r)
    | _ => (([] : List Char), l)
  match parseIntPart l1 with
  | none => none
  | some (ip, l2) =>
    match parseFracPart l2 with
    | none => none
    | some (fp, l3) =>
      match parseExpPart l3 with
      | none => none
      | some (ep, l4) => some (Json.num (String.mk (neg ++ ip ++ fp ++ ep)), l4)

mutual

/-- Parse one JSON value, leading whitespace allowed. -/
def parseValue : Nat → List Char → Option (Json × List Char)
  | 0, _ => none
  | fuel + 1, l =>
    match skipWs l with
    | [] => none
    | c :: rest =>
      if c = '"' then
        (parseStringBody (rest.length + 1) rest).map
          (fun p => (Json.str (String.mk p.1), p.2))
      else if c = '[' then
        match skipWs rest with
        | ']' :: r => some (Json.arr [], r)
        | l2 => (parseElems fuel l2).map (fun p => (Json.arr p.1, p.2))
      else if c = '\x7b' then
        match skipWs rest with
        | '\x7d' :: r => some (Json.obj [], r)
        | l2 => (parseMembers fuel l2).map (fun p => (Json.obj p.1, p.2))
      else if startsWithChars (c :: rest) ("true".toList) then
        some (Json.bool true, (c :: rest).drop 4)
      else if startsWithChars (c :: rest) ("false".toList) then
        some (Json.bool false, (c :: rest).drop 5)
      else if startsWithChars (c :: rest) ("null".toList) then
        some (Json.null, (c :: rest).drop 4)
      else if c = '-' || c.isDigit then
        parseNumber (c :: rest)
      else none

/-- Parse the elements of a non-empty JSON array, up to and including the
closing bracket. -/
def parseElems : Nat → List Char → Option (List Json × List Char)
  | 0, _ => none
  | fuel + 1, l =>
    match parseValue fuel l with
    | none => none
    | some (v, r) =>
      match skipWs r with
      | ',' :: r3 => (parseElems fuel r3).map (fun p => (v :: p.1, p.2))
      | ']' :: r3 => some ([v], r3)
      | _ => none

/-- Parse the members of a non-empty JSON object, up to and including the
closing brace. -/
def parseMembers : Nat → List Char → Option (List (String × Json) × List Char)
  | 0, _ => none
  | fuel + 1, l =>
    match skipWs l with
    | '"' :: rest =>
      match parseStringBody (rest.length + 1) rest with
      | none => none
      | some (key, r) =>
        match skipWs r with
        | ':' :: r3 =>
          match parseValue fuel r3 with
          | none => none
          | some (v, r4) =>
            match skipWs r4 with
            | ',' :: r6 =>
              (parseMembers fuel r6).map
                (fun p => ((String.mk key, v) :: p.1, p.2))
            | '\x7d' :: r6 => some ([(String.mk key, v)], r6)
            | _ => none
        | _ => none
    | _ => none

end

/-- Embedding of `JSON.parse`: parse one value and require only
whitespace after it; `none` models a thrown SyntaxError. -/
def jsonParse (s : String) : Option Json :=
  match parseValue (2 * s.toList.length + 2) s.toList with
  | none => none
  | some (v, rest) => if (skipWs rest).isEmpty then some v else none

/-- JavaScript truthiness of an embedded value.  A number is falsy
exactly when its mantissa digits are all zero (IEEE underflow of
extreme exponents is not modelled; no number reaches a draft). -/
def truthy : Json → Bool
  | Json.null => false
  | Json.bool b => b
  | Json.num lex =>
    !((lex.toList.takeWhile (fun c => !(c = 'e' || c = 'E'))).all
        (fun c => !c.isDigit || c = '0'))
  | Json.str s => if s = "" then false else true
  | Json.arr _ => true
  | Json.obj _ => true

/-- Property lookup on a JavaScript object built by `JSON.parse`: with
duplicate keys the last occurrence wins. -/
def lookupLast : List (String × Json) → String → Option Json
  | [], _ => none
  | (k, v) :: rest, key =>
    match lookupLast rest key with
    | some r => some r
    | none => if k = key then some v else none

/-- Embedding of property access `value.key`: `none` is JavaScript
`undefined` (non-objects have none of the properties consulted here). -/
def getField : Json → String → Option Json
  | Json.obj fields, key => lookupLast fields key
  | _, _ => none

/-- Embedding of JavaScript `a || b` on possibly-undefined values: the
first operand if truthy, otherwise the second operand as is. -/
def jsOrOpt (a b : Option Json) : Option Json :=
  match a with
  | some v => if truthy v then some v else b
  | none => b

/-- Is the value JavaScript `null`? -/
def isNull : Json → Bool
  | Json.null => true
  | _ => false

mutual

/-- Template-literal string conversion of a JavaScript value. -/
def jsonDisplay : Json → String
  | Json.null => "null"
  | Json.bool true => "true"
  | Json.bool false => "false"
  | Json.num lex => lex
  | Json.str s => s
  | Json.arr elems => String.intercalate "," (jsonDisplayElems elems)
  | Json.obj _ => "[object Object]"

/-- Elements of an array as rendered by `Array.prototype.join`:
null elements render empty, others by the template conversion. -/
def jsonDisplayElems : List Json → List String
  | [] => []
  | Json.null :: rest => "" :: jsonDisplayElems rest
  | j :: rest => jsonDisplay j :: jsonDisplayElems rest

end

/-- Template-literal conversion of a possibly-undefined value, as in
the interpolation of the bullet line. -/
def jsToDisplay : Option Json → String
  | none => "undefined"
  | some v => jsonDisplay v

/-- Embedding of the arrow function inside `contentArray.map`: renders
one item as a bullet line plus an indented link line.  Property access
on a null item throws, modelled by `Except.error`. -/
def renderItem (item : Json) : Except Unit String :=
  if isNull item then Except.error ()
  else
    Except.ok
      ("• " ++
        jsToDisplay (jsOrOpt (getField item "description") (getField item "headline")) ++
        "\n  " ++
        jsToDisplay (jsOrOpt (getField item "story_or_tweet_link") (getField item "link")))

/-- Left-to-right rendering of all items, as `Array.prototype.map`
performs it; the first thrown error aborts the whole map. -/
def renderItems : List Json → Except Unit (List String)
  | [] => Except.ok []
  | item :: rest =>
    match renderItem item with
    | Except.error e => Except.error e
    | Except.ok s =>
      match renderItems rest with
      | Except.error e => Except.error e
      | Except.ok ss => Except.ok (s :: ss)

/-- Embedding of
`parsedResponse.interestingTweetsOrStories || parsedResponse.stories || []`. -/
def contentArrayOf (parsedResponse : Json) : Json :=
  match
    jsOrOpt
      (jsOrOpt (getField parsedResponse "interestingTweetsOrStories")
        (getField parsedResponse "stories"))
      (some (Json.arr [])) with
  | some v => v
  | none => Json.arr []

/-- Embedding of everything after `JSON.parse` in generateDraft.ts:
property access on a null response throws; a truthy non-array content
value makes `.map` throw; an empty array yields the empty-collection
fallback sentence; otherwise the items are rendered and joined with a
blank line between blocks. -/
def formatFromParsed (header : String) (parsedResponse : Json) : Except Unit String :=
  if isNull parsedResponse then Except.error ()
  else
    match contentArrayOf parsedResponse with
    | Json.arr items =>
      if items.length = 0 then
        Except.ok (header ++ "No trending stories or tweets found at this time.")
      else
        match renderItems items with
        | Except.error e => Except.error e
        | Except.ok blocks => Except.ok (header ++ String.intercalate "\n\n" blocks)
    | _ => Except.error ()

/-- The two chat-completion backends the source can instantiate. -/
inductive Backend where
  | openai : Backend
  | deepseek : Backend
deriving DecidableEq

/-- The process environment slice the function reads: the two API-key
variables, absent or present with a value. -/
structure Env where
  openaiKey : Option String
  deepseekKey : Option String

/-- JavaScript `!!value` on an environment variable: present and
non-empty. -/
def truthyEnvVar : Option String → Bool
  | none => false
  | some s => if s = "" then false else true

/-- Embedding of `const useOpenAI = !!process.env.OPENAI_API_KEY`. -/
def useOpenAI (env : Env) : Bool := truthyEnvVar env.openaiKey

/-- Embedding of
`const useDeepseek = !!process.env.DEEPSEEK_API_KEY && !useOpenAI`. -/
def useDeepseek (env : Env) : Bool :=
  truthyEnvVar env.deepseekKey && !useOpenAI env

/-- The backend whose endpoint receives the completion call, when any
credential is usable. -/
def selectedBackend (env : Env) : Option Backend :=
  if useOpenAI env then some Backend.openai
  else if useDeepseek env then some Backend.deepseek
  else none

/-- The dated header template of the draft. -/
def headerFor (currentDate : String) : String :=
  "🚀 AI and LLM Trends on X for " ++ currentDate ++ "\n\n"

/-- The body of the `try` block of generateDraft.ts: credential check,
backend dispatch, completion call, the `!rawJSON` fallback, sanitizing,
parsing and formatting.  `Except.error` is any thrown exception. -/
def runDraft (env : Env) (call : Backend → Except Unit (Option String))
    (currentDate : String) : Except Unit String :=
  let header := headerFor currentDate
  if !useOpenAI env && !useDeepseek env then
    Except.error ()
  else
    match call (if useOpenAI env then Backend.openai else Backend.deepseek) with
    | Except.error e => Except.error e
    | Except.ok rawJSON =>
      match rawJSON with
      | none => Except.ok (header ++ "No output.")
      | some rj =>
        if rj = "" then Except.ok (header ++ "No output.")
        else
          match jsonParse (cleanJSON rj) with
          | none => Except.error ()
          | some parsedResponse => formatFromParsed header parsedResponse

/-- Embedding of `generateDraft`: the catch-all boundary converts any
thrown exception into the fixed error string.  `rawStories` is the raw
scraped text; it is forwarded to the provider unread, so the draft only
depends on it through the oracle `call`. -/
def generateDraft (env : Env) (call : Backend → Except Unit (Option String))
    (currentDate : String) (rawStories : String) : String :=
  match runDraft env call currentDate with
  | Except.ok s => s
  | Except.error _ => "Error generating draft post."

/-- An item of the canonical provider shape, as a pair of description
and link. -/
def itemOfPair (p : String × String) : Json :=
  Json.obj [("description", Json.str p.1), ("story_or_tweet_link", Json.str p.2)]

/-- The bullet block an item renders to. -/
def blockOf (p : String × String) : String := "• " ++ p.1 ++ "\n  " ++ p.2

/-- Where the fence marker does not occur, the first replace leaves the
text unchanged, at any fuel. -/
theorem removeJsonFencesFuel_eq_self (fuel : Nat) (l : List Char)
    (h : occursJsonFence l = false) : removeJsonFencesFuel fuel l = l := by
  induction fuel generalizing l with
  | zero => rfl
  | succ fuel ih =>
    cases l with
    | nil => rfl
    | cons c rest =>
      rw [occursJsonFence] at h
      simp only [Bool.or_eq_false_iff] at h
      rw [removeJsonFencesFuel, if_neg (by rw [h.1]; exact Bool.false_ne_true),
        ih rest h.2]

/-- Where the fence marker does not occur, the first replace leaves the
text unchanged. -/
theorem removeJsonFences_eq_self (l : List Char) (h : occursJsonFence l = false) :
    removeJsonFences l = l :=
  removeJsonFencesFuel_eq_self _ l h

/-- Where the trailing-fence regex does not match, the second replace
leaves the text unchanged. -/
theorem removeTrailingFence_eq_self (l : List Char) (h : hasTrailingFence l = false) :
    removeTrailingFence l = l := by
  induction l with
  | nil => rfl
  | cons c rest ih =>
    rw [hasTrailingFence] at h
    simp only [Bool.or_eq_false_iff] at h
    rw [removeTrailingFence, if_neg (by rw [h.1]; exact Bool.false_ne_true),
      ih h.2]

/-- A usable credential makes the guard pass and fixes the backend the
call expression dispatches to. -/
theorem selectedBackend_elim (env : Env) (b : Backend)
    (h : selectedBackend env = some b) :
    (!useOpenAI env && !useDeepseek env) = false ∧
      (if useOpenAI env then Backend.openai else Backend.deepseek) = b := by
  unfold selectedBackend at h
  cases hO : useOpenAI env with
  | true =>
    rw [hO] at h
    simp at h
    subst h
    simp [hO]
  | false =>
    rw [hO] at h
    cases hD : useDeepseek env with
    | true =>
      rw [hD] at h
      simp at h
      subst h
      simp [hO, hD]
    | false =>
      rw [hD] at h
      simp at h

/-- With a selected backend and a non-empty completion content, the try
block reduces to sanitize-parse-format on that content. -/
theorem runDraft_content (env : Env) (b : Backend)
    (call : Backend → Except Unit (Option String)) (date content : String)
    (hsel : selectedBackend env = some b)
    (hcall : call b = Except.ok (some content)) (hne : content ≠ "") :
    runDraft env call date =
      match jsonParse (cleanJSON content) with
      | none => Except.error ()
      | some parsedResponse => formatFromParsed (headerFor date) parsedResponse := by
  obtain ⟨hguard, hif⟩ := selectedBackend_elim env b hsel
  unfold runDraft
  simp only [hguard, Bool.false_eq_true, if_false, hif, hcall, hne, if_neg hne]

/-- A non-empty description and link of the canonical key names render
as the bullet block of the pair. -/
theorem renderItem_pair (p : String × String) (hd : p.1 ≠ "") (hl : p.2 ≠ "") :
    renderItem (itemOfPair p) = Except.ok (blockOf p) := by
  have hD : jsOrOpt (some (Json.str p.1)) none = some (Json.str p.1) := by
    simp [jsOrOpt, truthy, hd]
  have hL : jsOrOpt (some (Json.str p.2)) none = some (Json.str p.2) := by
    simp [jsOrOpt, truthy, hl]
  show Except.ok
      ("• " ++ jsToDisplay (jsOrOpt (some (Json.str p.1)) none) ++
        "\n  " ++ jsToDisplay (jsOrOpt (some (Json.str p.2)) none)) = _
  rw [hD, hL]
  rfl

/-- Rendering a mapped list of canonical pairs succeeds and yields the
blocks of the pairs, in order. -/
theorem renderItems_pairs (ps : List (String × String))
    (h : ∀ p ∈ ps, p.1 ≠ "" ∧ p.2 ≠ "") :
    renderItems (ps.map itemOfPair) = Except.ok (ps.map blockOf) := by
  induction ps with
  | nil => rfl
  | cons p rest ih =>
    have hp := h p (List.mem_cons_self _ _)
    have hrest : ∀ q ∈ rest, q.1 ≠ "" ∧ q.2 ≠ "" :=
      fun q hq => h q (List.mem_cons_of_mem _ hq)
    simp only [List.map_cons, renderItems]
    rw [renderItem_pair p hp.1 hp.2, ih hrest]

/-- Formatting a response carrying a non-empty canonical collection
yields the header and the joined blocks. -/
theorem formatFromParsed_items (header : String) (ps : List (String × String))
    (hne : ps ≠ []) (h : ∀ p ∈ ps, p.1 ≠ "" ∧ p.2 ≠ "") :
    formatFromParsed header
        (Json.obj [("interestingTweetsOrStories", Json.arr (ps.map itemOfPair))]) =
      Except.ok (header ++ String.intercalate "\n\n" (ps.map blockOf)) := by
  have hca : contentArrayOf
      (Json.obj [("interestingTweetsOrStories", Json.arr (ps.map itemOfPair))]) =
      Json.arr (ps.map itemOfPair) := rfl
  have hlen : ¬((ps.map itemOfPair).length = 0) := by
    simp only [List.length_map, ne_eq, List.length_eq_zero]
    exact hne
  unfold formatFromParsed
  simp only [isNull, Bool.false_eq_true, if_false]
  rw [hca]
  simp only [hlen, if_false]
  rw [renderItems_pairs ps h]

/-- Formatting a non-null response whose selected collection is the
empty array yields the empty-collection fallback sentence. -/
theorem formatFromParsed_empty (header : String) (parsedResponse : Json)
    (hn : isNull parsedResponse = false)
    (hca : contentArrayOf parsedResponse = Json.arr []) :
    formatFromParsed header parsedResponse =
      Except.ok (header ++ "No trending stories or tweets found at this time.") := by
  unfold formatFromParsed
  simp only [hn, Bool.false_eq_true, if_false]
  rw [hca]
  rfl

/-- Every successful result of the formatter starts with the header. -/
theorem formatFromParsed_ok_prefixed (header : String) (parsedResponse : Json)
    (s : String) (h : formatFromParsed header parsedResponse = Except.ok s) :
    ∃ r, s = header ++ r := by
  unfold formatFromParsed at h
  split at h
  · exact absurd h (by simp)
  · split at h
    · next items =>
      split at h
      · injection h with h
        exact ⟨_, h.symm⟩
      · split at h
        · exact absurd h (by simp)
        · injection h with h
          exact ⟨_, h.symm⟩
    · exact absurd h (by simp)

/-- Every successful result of the try block starts with the header. -/
theorem runDraft_ok_prefixed (env : Env)
    (call : Backend → Except Unit (Option String)) (date s : String)
    (h : runDraft env call date = Except.ok s) :
    ∃ r, s = headerFor date ++ r := by
  unfold runDraft at h
  split at h
  · exact absurd h (by simp)
  · split at h
    · exact absurd h (by simp)
    · next rawJSON =>
      split at h
      · injection h with h
        exact ⟨_, h.symm⟩
      · next rj =>
        split at h
        · injection h with h
          exact ⟨_, h.symm⟩
        · split at h
          · exact absurd h (by simp)
          · exact formatFromParsed_ok_prefixed _ _ _ h

/-- C3: Provider selection: if the OpenAI-style credential flag is set
(regardless of whether the Deepseek-style flag is also set), the
OpenAI-style backend is selected and receives the call; if only the
Deepseek-style flag is set, the Deepseek-style backend is selected; at
most one provider credential is active per invocation. -/
theorem provider_selection_priority (env : Env) :
    (truthyEnvVar env.openaiKey = true →
      selectedBackend env = some Backend.openai) ∧
    (truthyEnvVar env.openaiKey = false → truthyEnvVar env.deepseekKey = true →
      selectedBackend env = some Backend.deepseek) ∧
    (¬(useOpenAI env = true ∧ useDeepseek env = true)) ∧
    (∀ b call call2 date raw, selectedBackend env = some b → call b = call2 b →
      generateDraft env call date raw = generateDraft env call2 date raw) := by
  refine ⟨?_, ?_, ?_, ?_⟩
  · intro h
    simp [selectedBackend, useOpenAI, h]
  · intro h1 h2
    simp [selectedBackend, useOpenAI, useDeepseek, h1, h2]
  · rintro ⟨h1, h2⟩
    unfold useDeepseek at h2
    rw [h1] at h2
    simp at h2
  · intro b call call2 date raw hsel hc
    obtain ⟨hguard, hif⟩ := selectedBackend_elim env b hsel
    unfold generateDraft runDraft
    simp only [hguard, Bool.false_eq_true, if_false, hif, hc]

/-- C3 witness: with both keys set, the OpenAI backend is selected. -/
theorem provider_selection_priority_w :
    selectedBackend ⟨some "sk", some "dk"⟩ = some Backend.openai :=
  (provider_selection_priority ⟨some "sk", some "dk"⟩).1 rfl

/-- C4: every error kind (no usable credential, transport failure,
parse failure) is caught at the single top-level boundary and converted
uniformly to the fixed string "Error generating draft post."; in
particular with neither credential flag set the result is exactly that
string, for every raw input. -/
theorem errors_uniform_result (env : Env)
    (call : Backend → Except Unit (Option String)) (date raw : String) :
    (useOpenAI env = false → useDeepseek env = false →
      generateDraft env call date raw = "Error generating draft post.") ∧
    (∀ b, selectedBackend env = some b → call b = Except.error () →
      generateDraft env call date raw = "Error generating draft post.") ∧
    (∀ b content, selectedBackend env = some b →
      call b = Except.ok (some content) → content ≠ "" →
      jsonParse (cleanJSON content) = none →
      generateDraft env call date raw = "Error generating draft post.") := by
  refine ⟨?_, ?_, ?_⟩
  · intro h1 h2
    simp [generateDraft, runDraft, h1, h2]
  · intro b hsel hc
    obtain ⟨hguard, hif⟩ := selectedBackend_elim env b hsel
    unfold generateDraft runDraft
    simp only [hguard, Bool.false_eq_true, if_false, hif, hc]
  · intro b content hsel hc hne hp
    unfold generateDraft
    rw [runDraft_content env b call date content hsel hc hne, hp]

/-- C4 witness: with neither credential flag set the result is the
fixed error string. -/
theorem errors_uniform_result_w :
    generateDraft ⟨none, none⟩ (fun _ => Except.ok (some "x")) "1/1/2026" "raw" =
      "Error generating draft post." :=
  (errors_uniform_result ⟨none, none⟩ (fun _ => Except.ok (some "x"))
    "1/1/2026" "raw").1 rfl rfl

/-- C7: content that after sanitization is not syntactically valid JSON
makes the parse fail and the overall result is the fixed error
string. -/
theorem parse_failure_error_result (env : Env)
    (call : Backend → Except Unit (Option String)) (date raw : String)
    (b : Backend) (content : String)
    (hsel : selectedBackend env = some b)
    (hcall : call b = Except.ok (some content)) (hne : content ≠ "")
    (hbad : jsonParse (cleanJSON content) = none) :
    generateDraft env call date raw = "Error generating draft post." := by
  unfold generateDraft
  rw [runDraft_content env b call date content hsel hcall hne, hbad]

/-- C7 witness: truncated braces are rejected by the parser and yield
the fixed error string. -/
theorem parse_failure_error_result_w :
    generateDraft ⟨some "sk", none⟩
      (fun _ => Except.ok (some "\x7b\"interestingTweetsOrStories\":["))
      "1/1/2026" "raw" = "Error generating draft post." :=
  parse_failure_error_result ⟨some "sk", none⟩
    (fun _ => Except.ok (some "\x7b\"interestingTweetsOrStories\":["))
    "1/1/2026" "raw" Backend.openai "\x7b\"interestingTweetsOrStories\":["
    rfl rfl (by decide) rfl

/-- C1: for every successfully parsed provider response whose selected
item collection is non-empty, the draft is the header followed by one
block per item (bullet, space, description, newline, two spaces, link),
blocks joined by a blank line, in the provider's original order. -/
theorem generateDraft_renders_items_in_order (env : Env)
    (call : Backend → Except Unit (Option String)) (date raw content : String)
    (b : Backend) (ps : List (String × String))
    (hsel : selectedBackend env = some b)
    (hcall : call b = Except.ok (some content)) (hne : content ≠ "")
    (hparse : jsonParse (cleanJSON content) =
      some (Json.obj [("interestingTweetsOrStories", Json.arr (ps.map itemOfPair))]))
    (hps : ps ≠ []) (hfields : ∀ p ∈ ps, p.1 ≠ "" ∧ p.2 ≠ "") :
    generateDraft env call date raw =
      headerFor date ++ String.intercalate "\n\n" (ps.map blockOf) := by
  unfold generateDraft
  rw [runDraft_content env b call date content hsel hcall hne, hparse]
  simp only [formatFromParsed_items (headerFor date) ps hps hfields]

set_option maxRecDepth 20000 in
/-- C1 witness: two items render as two blocks joined by a blank line,
in the provider's order. -/
theorem generateDraft_renders_items_in_order_w :
    generateDraft ⟨some "sk", none⟩
      (fun _ => Except.ok (some "\x7b\"interestingTweetsOrStories\":[\x7b\"description\":\"B\",\"story_or_tweet_link\":\"http://y\"\x7d,\x7b\"description\":\"C\",\"story_or_tweet_link\":\"http://z\"\x7d]\x7d"))
      "1/1/2026" "raw" =
      headerFor "1/1/2026" ++
        String.intercalate "\n\n" ([("B", "http://y"), ("C", "http://z")].map blockOf) :=
  generateDraft_renders_items_in_order ⟨some "sk", none⟩
    (fun _ => Except.ok (some "\x7b\"interestingTweetsOrStories\":[\x7b\"description\":\"B\",\"story_or_tweet_link\":\"http://y\"\x7d,\x7b\"description\":\"C\",\"story_or_tweet_link\":\"http://z\"\x7d]\x7d"))
    "1/1/2026" "raw"
    "\x7b\"interestingTweetsOrStories\":[\x7b\"description\":\"B\",\"story_or_tweet_link\":\"http://y\"\x7d,\x7b\"description\":\"C\",\"story_or_tweet_link\":\"http://z\"\x7d]\x7d"
    Backend.openai [("B", "http://y"), ("C", "http://z")]
    rfl rfl (by decide) rfl (by decide) (by decide)

/-- C2: the rendered description is the description field when it is a
non-empty string, else the headline field; the rendered link is the
story_or_tweet_link field when non-empty, else the link field; an item
with only headline and link under the stories key renders with those
values; when both key names are supplied the first non-empty one
wins. -/
theorem renderItem_field_fallback (d h s l : String) :
    (d ≠ "" → s ≠ "" →
      renderItem (Json.obj [("description", Json.str d), ("headline", Json.str h),
          ("story_or_tweet_link", Json.str s), ("link", Json.str l)]) =
        Except.ok ("• " ++ d ++ "\n  " ++ s)) ∧
    (renderItem (Json.obj [("headline", Json.str h), ("link", Json.str l)]) =
      Except.ok ("• " ++ h ++ "\n  " ++ l)) ∧
    (renderItem (Json.obj [("description", Json.str ""), ("headline", Json.str h),
        ("story_or_tweet_link", Json.str ""), ("link", Json.str l)]) =
      Except.ok ("• " ++ h ++ "\n  " ++ l)) ∧
    (∀ env call date raw b content, selectedBackend env = some b →
      call b = Except.ok (some content) → content ≠ "" →
      jsonParse (cleanJSON content) =
        some (Json.obj [("stories",
          Json.arr [Json.obj [("headline", Json.str h), ("link", Json.str l)]])]) →
      generateDraft env call date raw =
        headerFor date ++ ("• " ++ h ++ "\n  " ++ l)) := by
  refine ⟨?_, rfl, rfl, ?_⟩
  · intro hd hs
    have hD : jsOrOpt (some (Json.str d)) (some (Json.str h)) = some (Json.str d) := by
      simp [jsOrOpt, truthy, hd]
    have hS : jsOrOpt (some (Json.str s)) (some (Json.str l)) = some (Json.str s) := by
      simp [jsOrOpt, truthy, hs]
    show Except.ok
        ("• " ++ jsToDisplay (jsOrOpt (some (Json.str d)) (some (Json.str h))) ++
          "\n  " ++ jsToDisplay (jsOrOpt (some (Json.str s)) (some (Json.str l)))) = _
    rw [hD, hS]
    rfl
  · intro env call date raw b content hsel hcall hne hparse
    unfold generateDraft
    rw [runDraft_content env b call date content hsel hcall hne, hparse]
    rfl

/-- C2 witness: a non-empty description and story_or_tweet_link win over
the fallback key names. -/
theorem renderItem_field_fallback_w :
    renderItem (Json.obj [("description", Json.str "B"), ("headline", Json.str "H"),
        ("story_or_tweet_link", Json.str "http://y"), ("link", Json.str "L")]) =
      Except.ok ("• B\n  http://y") :=
  (renderItem_field_fallback "B" "H" "http://y" "L").1 (by decide) (by decide)

/-- C5 counterexample: the sanitizer does alter the interior of the
text; with no fence at the start and none at the end, the claim
predicts a no-op (up to trimming), but the fence marker inside the text
is removed. -/
theorem cleanJSON_claim_counterexample :
    cleanJSON "a ```json b" = "a b" ∧ "a b" ≠ "a ```json b" :=
  ⟨rfl, by decide⟩

/-- C5 amended: the sanitizer removes every occurrence of a
triple-backtick immediately followed by the tag "json" plus any
following whitespace, wherever it occurs in the text, not only at the
start, and the tag is required, not optional (a bare leading
triple-backtick stays); it removes a trailing triple-backtick fence
only at the very end; it trims surrounding whitespace; when neither
marker occurs it is a no-op up to trimming. -/
theorem cleanJSON_amended :
    (∀ s : String, occursJsonFence s.toList = false →
      hasTrailingFence s.toList = false → cleanJSON s = jsTrim s) ∧
    cleanJSON "a ```json b" = "a b" ∧
    cleanJSON "```json\nhello" = "hello" ∧
    cleanJSON "hello\n```" = "hello" ∧
    cleanJSON "``` hello" = "``` hello" := by
  refine ⟨?_, rfl, rfl, rfl, rfl⟩
  intro s h1 h2
  unfold cleanJSON jsTrim
  rw [removeJsonFences_eq_self _ h1, removeTrailingFence_eq_self _ h2]

/-- C5 amended witness: fence-free text is only trimmed. -/
theorem cleanJSON_amended_w : cleanJSON " hello " = jsTrim " hello " :=
  cleanJSON_amended.1 " hello " rfl rfl

/-- C6: an absent completion yields the header plus "No output."
(before any sanitization or parsing, as no content exists to parse);
a parsed response whose selected collection is the empty array yields
the header plus the empty-collection fallback sentence; both are
normal successful outputs, not errors. -/
theorem fallback_sentences (env : Env)
    (call : Backend → Except Unit (Option String)) (date raw : String)
    (b : Backend) :
    (selectedBackend env = some b → call b = Except.ok none →
      generateDraft env call date raw = headerFor date ++ "No output.") ∧
    (∀ content parsedResponse, selectedBackend env = some b →
      call b = Except.ok (some content) → content ≠ "" →
      jsonParse (cleanJSON content) = some parsedResponse →
      isNull parsedResponse = false →
      contentArrayOf parsedResponse = Json.arr [] →
      generateDraft env call date raw =
        headerFor date ++ "No trending stories or tweets found at this time.") := by
  constructor
  · intro hsel hcall
    obtain ⟨hguard, hif⟩ := selectedBackend_elim env b hsel
    unfold generateDraft runDraft
    simp only [hguard, Bool.false_eq_true, if_false, hif, hcall]
  · intro content parsedResponse hsel hcall hne hparse hnull hca
    unfold generateDraft
    rw [runDraft_content env b call date content hsel hcall hne, hparse]
    simp only [formatFromParsed_empty (headerFor date) parsedResponse hnull hca]

/-- C6 witness: an empty primary collection produces the
empty-collection fallback sentence. -/
theorem fallback_sentences_w :
    generateDraft ⟨some "sk", none⟩
      (fun _ => Except.ok (some "\x7b\"interestingTweetsOrStories\":[]\x7d"))
      "1/1/2026" "raw" =
      headerFor "1/1/2026" ++ "No trending stories or tweets found at this time." :=
  (fallback_sentences ⟨some "sk", none⟩
    (fun _ => Except.ok (some "\x7b\"interestingTweetsOrStories\":[]\x7d"))
    "1/1/2026" "raw" Backend.openai).2
    "\x7b\"interestingTweetsOrStories\":[]\x7d"
    (Json.obj [("interestingTweetsOrStories", Json.arr [])])
    rfl rfl (by decide) rfl rfl rfl

/-- C8: sanitizing the fenced payload and sanitizing the bare payload
parse to the same structured value, and that value is the object with
the empty primary collection. -/
theorem sanitize_parse_equiv :
    jsonParse (cleanJSON "```json\n\x7b\"interestingTweetsOrStories\":[]\x7d\n```") =
      jsonParse (cleanJSON "\x7b\"interestingTweetsOrStories\":[]\x7d") ∧
    jsonParse (cleanJSON "\x7b\"interestingTweetsOrStories\":[]\x7d") =
      some (Json.obj [("interestingTweetsOrStories", Json.arr [])]) :=
  ⟨rfl, rfl⟩

/-- C9: for every environment, oracle and input, generateDraft returns
a string; every terminating path yields either the fixed error string
or an output prefixed with the dated header. -/
theorem generateDraft_total_string_shape (env : Env)
    (call : Backend → Except Unit (Option String)) (date raw : String) :
    generateDraft env call date raw = "Error generating draft post." ∨
      ∃ r, generateDraft env call date raw = headerFor date ++ r := by
  unfold generateDraft
  cases hr : runDraft env call date with
  | error e => exact Or.inl rfl
  | ok s =>
    obtain ⟨r, hrr⟩ := runDraft_ok_prefixed env call date s hr
    exact Or.inr ⟨r, hrr⟩

/-- C10: a response whose interestingTweetsOrStories key is the truthy
empty array short-circuits the key-priority fallback: the stories key
is never consulted, whatever value it holds, and the result is the
empty-collection fallback sentence. -/
theorem empty_primary_collection_short_circuits (env : Env)
    (call : Backend → Except Unit (Option String)) (date raw : String)
    (b : Backend) (content : String) (v : Json)
    (hsel : selectedBackend env = some b)
    (hcall : call b = Except.ok (some content)) (hne : content ≠ "")
    (hparse : jsonParse (cleanJSON content) =
      some (Json.obj [("interestingTweetsOrStories", Json.arr []), ("stories", v)])) :
    generateDraft env call date raw =
      headerFor date ++ "No trending stories or tweets found at this time." := by
  unfold generateDraft
  rw [runDraft_content env b call date content hsel hcall hne, hparse]
  simp only [formatFromParsed_empty (headerFor date)
    (Json.obj [("interestingTweetsOrStories", Json.arr []), ("stories", v)])
    rfl rfl]

set_option maxRecDepth 20000 in
/-- C10 witness: a non-empty stories collection is ignored when the
primary key holds the empty array. -/
theorem empty_primary_collection_short_circuits_w :
    generateDraft ⟨some "sk", none⟩
      (fun _ => Except.ok (some "\x7b\"interestingTweetsOrStories\":[],\"stories\":[\x7b\"headline\":\"A\",\"link\":\"http://x\"\x7d]\x7d"))
      "1/1/2026" "raw" =
      headerFor "1/1/2026" ++ "No trending stories or tweets found at this time." :=
  empty_primary_collection_short_circuits ⟨some "sk", none⟩
    (fun _ => Except.ok (some "\x7b\"interestingTweetsOrStories\":[],\"stories\":[\x7b\"headline\":\"A\",\"link\":\"http://x\"\x7d]\x7d"))
    "1/1/2026" "raw" Backend.openai
    "\x7b\"interestingTweetsOrStories\":[],\"stories\":[\x7b\"headline\":\"A\",\"link\":\"http://x\"\x7d]\x7d"
    (Json.arr [Json.obj [("headline", Json.str "A"), ("link", Json.str "http://x")]])
    rfl rfl (by decide) rfl
